import Mathlib

/-!
Shallow embedding of the availability-intersection engine of the Syncify
Discord bot (utils/calendar.js): `checkTimeAgainstAvailability`,
`generateTimeSlots`, the inline conflict detector and `findGroupAvailability`,
plus the date-range form validation of `commands/group-schedule.js`.

Modelling conventions:
* Absolute instants are `Int` minutes since the epoch; calendar dates are
  `Int` epoch days (day 0 is a Thursday, like 1970-01-01), so local midnight
  of day `d` is minute `d * 1440`.
* A timezone is a fixed offset in minutes added to an absolute instant to
  obtain the local wall clock (moment's `.tz()` conversion).
* Wall-clock window strings stay strings and are parsed by `parseTime12`,
  the embedding of moment's `h:mm A` format; an unparseable string makes
  every comparison with the resulting invalid moment return false, which is
  modelled by the `Option.none` branches below.
* JS `while` loops are embedded with an explicit fuel argument that provably
  dominates the number of iterations (the slot loop advances 30 minutes per
  iteration over a 480-minute window), keeping every definition computable.
-/

/-- A timezone, as the fixed minute offset from UTC to local wall clock. -/
structure Timezone where
  offset : Int
deriving DecidableEq, Repr

/-- One day-class entry of a calendar's availability settings
(`availability.weekdays` / `availability.weekends` in the JS objects):
an `available` flag and optional wall-clock `start`/`end` strings. -/
structure LocalWindow where
  available : Bool
  start : Option String
  end_ : Option String
deriving DecidableEq, Repr

/-- A calendar's availability settings: the `weekdays` and `weekends`
entries, each possibly absent. -/
structure Availability where
  weekdays : Option LocalWindow
  weekends : Option LocalWindow
deriving DecidableEq, Repr

/-- A user row joined onto a calendar (`calendar.users`): Discord user id
and timezone string; `none` models a missing/falsy timezone. -/
structure User where
  user_id : Nat
  timezone : Option Timezone
deriving DecidableEq, Repr

/-- A calendar row: id, joined user, availability settings (`none` models a
missing/falsy `availability` column). -/
structure Calendar where
  id : Nat
  users : User
  availability : Option Availability
deriving DecidableEq, Repr

/-- A meeting row: owning calendar, absolute start/end instants, status. -/
structure Meeting where
  calendar_id : Nat
  start_time : Int
  end_time : Int
  status : String
deriving DecidableEq, Repr

/-- A generated candidate slot (`{start, end}` of `generateTimeSlots`; the
`formatted` presentation fields are omitted). -/
structure Slot where
  start : Int
  end_ : Int
deriving DecidableEq, Repr

/-- The numeric value of a decimal digit character, `none` otherwise. -/
def charDigit (c : Char) : Option Nat :=
  if '0' ≤ c ∧ c ≤ '9' then some (c.toNat - '0'.toNat) else none

/-- Parse a nonempty all-digit character list as a decimal `Nat`. -/
def parseNatChars (cs : List Char) : Option Nat :=
  match cs with
  | [] => none
  | _ =>
    cs.foldl
      (fun acc c =>
        match acc, charDigit c with
        | some n, some d => some (n * 10 + d)
        | _, _ => none)
      (some 0)

/-- Split a character list at every occurrence of `sep` (kernel-computable
stand-in for `String.splitOn` on the characters of a string). -/
def splitChars (sep : Char) : List Char → List Char → List (List Char)
  | [], acc => [acc.reverse]
  | c :: rest, acc =>
    if c = sep then acc.reverse :: splitChars sep rest []
    else splitChars sep rest (c :: acc)

/-- Parse one component of an `h:mm A` time: the 12-hour `h` part. -/
def parseHour12 (cs : List Char) : Option Nat :=
  match parseNatChars cs with
  | some h => if 1 ≤ h ∧ h ≤ 12 then some h else none
  | none => none

/-- Parse the `mm` component of an `h:mm A` time. -/
def parseMinute (cs : List Char) : Option Nat :=
  match parseNatChars cs with
  | some m => if m ≤ 59 then some m else none
  | none => none

/-- Embedding of moment's `h:mm A` parse used on availability window strings
(line 146-147 of utils/calendar.js): returns the minute of the local day, or
`none` when the string does not parse (an invalid moment in JS). -/
def parseTime12 (s : String) : Option Nat :=
  match splitChars ' ' s.data [] with
  | [hm, ap] =>
    match splitChars ':' hm [] with
    | [hs, ms] =>
      match parseHour12 hs, parseMinute ms with
      | some h, some m =>
        match ap with
        | ['A', 'M'] => some ((if h = 12 then 0 else h) * 60 + m)
        | ['P', 'M'] => some ((if h = 12 then 12 else h + 12) * 60 + m)
        | _ => none
      | _, _ => none
    | _ => none
  | _ => none

/-- moment's `.day()` on a local instant: 0 = Sunday … 6 = Saturday.
Epoch day 0 is a Thursday (index 4). -/
def dayOfWeek (localMinutes : Int) : Int :=
  (localMinutes.fdiv 1440 + 4).emod 7

/-- Whether an absolute instant falls on Saturday or Sunday in timezone `z`
(`start.day() === 0 || start.day() === 6` after `.tz(timezone)`). -/
def isWeekendAt (t : Int) (z : Timezone) : Bool :=
  dayOfWeek (t + z.offset) == 0 || dayOfWeek (t + z.offset) == 6

/-- Embedding of `checkTimeAgainstAvailability(startTime, endTime,
availability, timezone)` (utils/calendar.js lines 121-151).  `none` for
`availability`/`timezone` models the falsy guard on line 122. -/
def checkTimeAgainstAvailability (startTime endTime : Int)
    (availability : Option Availability) (timezone : Option Timezone) : Bool :=
  match availability, timezone with
  | some avail, some tz =>
    let localStart := startTime + tz.offset
    let localEnd := endTime + tz.offset
    let isWeekend := isWeekendAt startTime tz
    let availSettings := if isWeekend then avail.weekends else avail.weekdays
    -- line 136: weekend and not available on weekends
    if isWeekend && !(match availSettings with
                      | some w => w.available
                      | none => false) then false
    else
      match availSettings with
      | none => false
      | some w =>
        match w.start, w.end_ with
        | some s, some e =>
          -- lines 146-147: parse the window on the start instant's local date
          let dayBase := 1440 * (localStart.fdiv 1440)
          match parseTime12 s, parseTime12 e with
          | some ms, some me =>
            -- line 150: start.isSameOrAfter(availStart) && end.isSameOrBefore(availEnd)
            decide (dayBase + ms ≤ localStart) && decide (localEnd ≤ dayBase + me)
          | _, _ => false
        | _, _ => false
  | _, _ => false

/-- The inner `while` loop of `generateTimeSlots` (utils/calendar.js lines
268-284).  The JS condition `slotStart.add(interval, 'minutes')
.isSameOrBefore(dayEnd)` MUTATES `slotStart`: every iteration first advances
the cursor by 30 minutes and only then tests and emits, and the trailing
`slotStart = moment(slotStart)` is a no-op copy.  `fuel` is an upper bound on
the iteration count that keeps the recursion structural; callers pass
`(dayEnd - slotStart).toNat + 1`, which dominates the number of iterations
because each iteration advances the cursor by 30 ≥ 1 minutes. -/
def slotLoop : Nat → Int → Int → Int → List Slot
  | 0, _, _, _ => []
  | Nat.succ fuel, slotStart, dayEnd, duration =>
    if slotStart + 30 ≤ dayEnd then
      let t := slotStart + 30
      (if t + duration ≤ dayEnd then [⟨t, t + duration⟩] else []) ++
        slotLoop fuel t dayEnd duration
    else []

/-- The outer per-date `while` loop of `generateTimeSlots` (lines 261-287):
for each epoch day `d` from the current cursor to `endDate`, the business
window is `dayStart = d*1440 + 540` (09:00) to `dayEnd = d*1440 + 1020`
(17:00), and the inner loop emits that day's slots.  `fuel` again bounds the
day count structurally. -/
def dayLoop : Nat → Int → Int → Int → List Slot
  | 0, _, _, _ => []
  | Nat.succ fuel, d, endDate, duration =>
    if d ≤ endDate then
      slotLoop ((d * 1440 + 1020 - (d * 1440 + 540)).toNat + 1)
          (d * 1440 + 540) (d * 1440 + 1020) duration ++
        dayLoop fuel (d + 1) endDate duration
    else []

/-- Embedding of `generateTimeSlots(startDate, endDate, duration)`
(utils/calendar.js lines 255-290), with dates as epoch days: midnight of
`startDate` through `endOf('day')` of `endDate`, 30-minute steps inside the
hardcoded 09:00-17:00 business window. -/
def generateTimeSlots (startDate endDate duration : Int) : List Slot :=
  dayLoop ((endDate - startDate).toNat + 1) startDate endDate duration

/-- The inline conflict test of `findGroupAvailability` against one meeting
(utils/calendar.js lines 236-240): strict overlap, same start, or same end. -/
def meetingConflicts (slot : Slot) (meeting : Meeting) : Bool :=
  (decide (slot.start < meeting.end_time) && decide (meeting.start_time < slot.end_)) ||
    slot.start == meeting.start_time || slot.end_ == meeting.end_time

/-- The conflict detector of `findGroupAvailability` (utils/calendar.js lines
230-241): `userMeetings.some(meeting => ...)`. -/
def hasConflict (slot : Slot) (userMeetings : List Meeting) : Bool :=
  userMeetings.any (fun meeting => meetingConflicts slot meeting)

/-- The `availabilityByUser` map of `findGroupAvailability` (utils/calendar.js
lines 200-207): a `forEach` over the fetched calendars that assigns
`{timezone, availability}` under the calendar's user id, so a later calendar
of the same user overwrites an earlier one.  Modelled as a `foldl` over
partial maps. -/
def availabilityByUser (calendars : List Calendar) :
    Nat → Option (Option Timezone × Option Availability) :=
  calendars.foldl
    (fun acc cal userId =>
      if cal.users.user_id == userId then some (cal.users.timezone, cal.availability)
      else acc userId)
    (fun _ => none)

/-- The `meetingsByUser` map of `findGroupAvailability` (utils/calendar.js
lines 193-197): for each calendar, `meetings.filter(m => m.calendar_id ===
cal.id)` assigned under the calendar's user id, later calendars of the same
user overwriting earlier ones. -/
def meetingsByUser (calendars : List Calendar) (meetings : List Meeting) :
    Nat → Option (List Meeting) :=
  calendars.foldl
    (fun acc cal userId =>
      if cal.users.user_id == userId then
        some (meetings.filter (fun m => m.calendar_id == cal.id))
      else acc userId)
    (fun _ => none)

/-- The calendar fetch of `findGroupAvailability` (utils/calendar.js lines
163-166): `.select('*, users!inner(*)').in('users.user_id', userIds)` over an
in-memory `calendars` table keeps the rows whose joined user id is in
`userIds`. -/
def fetchedCalendars (dbCalendars : List Calendar) (userIds : List Nat) : List Calendar :=
  dbCalendars.filter (fun cal => userIds.contains cal.users.user_id)

/-- The meeting fetch of `findGroupAvailability` (utils/calendar.js lines
179-185): meetings of the fetched calendars with
`end_time >= startDateT00:00:00Z`, `start_time <= endDateT23:59:59Z` and
status `confirmed` (23:59:59 is minute 1439 of the day). -/
def fetchedMeetings (dbMeetings : List Meeting) (calendarIds : List Nat)
    (startDate endDate : Int) : List Meeting :=
  dbMeetings.filter (fun m =>
    calendarIds.contains m.calendar_id &&
      decide (startDate * 1440 ≤ m.end_time) &&
      decide (m.start_time ≤ endDate * 1440 + 1439) &&
      m.status == "confirmed")

/-- The per-user body of the slot filter of `findGroupAvailability`
(utils/calendar.js lines 214-242): availability lookup (`!userAvail` means
the user is rejected), the availability evaluator, and the conflict detector
over `meetingsByUser[userId] || []`. -/
def slotPassesUser (calendars : List Calendar) (meetings : List Meeting)
    (slot : Slot) (userId : Nat) : Bool :=
  match availabilityByUser calendars userId with
  | none => false  -- line 217: if (!userAvail) return false
  | some (tzv, avail) =>
    checkTimeAgainstAvailability slot.start slot.end_ avail tzv &&
      -- line 229: meetingsByUser[userId] || []
      !(hasConflict slot ((meetingsByUser calendars meetings userId).getD []))

/-- Embedding of `findGroupAvailability(userIds, startDate, endDate,
duration)` (utils/calendar.js lines 161-246).  The two database reads are
modelled by their range/filter semantics over in-memory tables `dbCalendars`
and `dbMeetings`.  Dates are epoch days, instants minutes. -/
def findGroupAvailability (dbCalendars : List Calendar) (dbMeetings : List Meeting)
    (userIds : List Nat) (startDate endDate duration : Int) : List Slot :=
  let calendars := fetchedCalendars dbCalendars userIds
  if calendars.isEmpty then []
  else
    let meetings :=
      fetchedMeetings dbMeetings (calendars.map (fun cal => cal.id)) startDate endDate
    let timeSlots := generateTimeSlots startDate endDate duration
    timeSlots.filter (fun slot =>
      userIds.all (fun userId => slotPassesUser calendars meetings slot userId))

/-- A calendar date as entered in the date-range form, `YYYY-MM-DD`. -/
structure CivilDate where
  year : Nat
  month : Nat
  day : Nat
deriving DecidableEq, Repr

/-- Gregorian leap-year rule (moment's calendar). -/
def isLeapYear (y : Nat) : Bool :=
  (y % 4 == 0 && !(y % 100 == 0)) || y % 400 == 0

/-- Days in a Gregorian month. -/
def daysInMonth (y m : Nat) : Nat :=
  if m = 2 then (if isLeapYear y then 29 else 28)
  else if m = 4 ∨ m = 6 ∨ m = 9 ∨ m = 11 then 30
  else 31

/-- Embedding of `moment(str, 'YYYY-MM-DD')` validity (group-schedule.js
lines 356-358): three dash-separated numeric fields forming a real calendar
date; anything else is an invalid moment, modelled as `none`. -/
def parseDate (s : String) : Option CivilDate :=
  match splitChars '-' s.data [] with
  | [ys, ms, ds] =>
    match parseNatChars ys, parseNatChars ms, parseNatChars ds with
    | some y, some m, some d =>
      if 1 ≤ m ∧ m ≤ 12 ∧ 1 ≤ d ∧ d ≤ daysInMonth y m then some ⟨y, m, d⟩ else none
    | _, _, _ => none
  | _ => none

/-- moment's `isBefore` on two calendar dates: lexicographic order. -/
def dateBefore (a b : CivilDate) : Bool :=
  a.year < b.year ||
    (a.year == b.year &&
      (a.month < b.month || (a.month == b.month && a.day < b.day)))

/-- Civil date to epoch day (standard Gregorian conversion), used to hand the
validated range to the slot machinery in the same representation the
engine model uses. -/
def toEpochDay (c : CivilDate) : Int :=
  let y : Int := (c.year : Int) - (if c.month ≤ 2 then 1 else 0)
  let era := y.fdiv 400
  let yoe := y - era * 400
  let mp : Int := ((c.month : Int) + 9) % 12
  let doy := (153 * mp + 2).fdiv 5 + (c.day : Int) - 1
  let doe := yoe * 365 + yoe.fdiv 4 - yoe.fdiv 100 + doy
  era * 146097 + doe - 719468

/-- Outcome of the date-range form handler: an early error reply, or
continuation into the scheduling stage with the normalized range.  Candidate
slots are only ever generated downstream of `proceed`. -/
inductive DateRangeFormResult where
  | reply (msg : String)
  | proceed (startDate endDate : Int)
deriving DecidableEq, Repr

/-- Embedding of the validation prefix of `processDateRangeForm`
(commands/group-schedule.js lines 349-389): parse both form fields as
`YYYY-MM-DD`; reply with a format error if either is invalid; reply with the
date-range error if `endDate.isBefore(startDate)`; otherwise continue to the
scheduling stage with the normalized range. -/
def processDateRangeForm (startDateStr endDateStr : String) : DateRangeFormResult :=
  match parseDate startDateStr, parseDate endDateStr with
  | some startDate, some endDate =>
    if dateBefore endDate startDate then
      .reply "End date must be after start date."
    else
      .proceed (toEpochDay startDate) (toEpochDay endDate)
  | _, _ => .reply "Invalid date format. Please use YYYY-MM-DD."

example : parseTime12 "9:00 AM" = some 540 := by decide
example : parseTime12 "5:00 PM" = some 1020 := by decide
example : parseTime12 "12:30 AM" = some 30 := by decide
example : parseTime12 "17:00" = none := by decide
example : dayOfWeek (2 * 1440 + 600) = 6 := by decide
example :
    checkTimeAgainstAvailability (1440 + 570) (1440 + 600)
      (some { weekdays := some { available := true, start := some "9:00 AM", end_ := some "5:00 PM" },
              weekends := none })
      (some ⟨0⟩) = true := by decide

-- scratch checks of the generator's observed behavior
example : (generateTimeSlots 0 0 30).length = 15 := by decide
example : (generateTimeSlots 0 0 30).head? = some ⟨570, 600⟩ := by decide
example : (generateTimeSlots 0 0 30).getLast? = some ⟨990, 1020⟩ := by decide
example : generateTimeSlots 0 (-1) 30 = [] := by decide
example :
    hasConflict ⟨600, 630⟩ [⟨1, 630, 660, "confirmed"⟩] = false := by decide
example :
    findGroupAvailability
      [⟨1, ⟨7, some ⟨0⟩⟩,
        some { weekdays := some { available := true, start := some "9:00 AM", end_ := some "5:00 PM" },
               weekends := none }⟩]
      [⟨1, 1440 + 600, 1440 + 660, "confirmed"⟩]
      [7] 1 1 30 ≠ [] := by decide
/-- A missing availability object makes the evaluator return false (the
falsy guard on line 122 of utils/calendar.js). -/
theorem checkTime_none_availability (s e : Int) (tzv : Option Timezone) :
    checkTimeAgainstAvailability s e none tzv = false := by
  cases tzv <;> rfl

/-- A missing timezone makes the evaluator return false (the falsy guard on
line 122 of utils/calendar.js). -/
theorem checkTime_none_timezone (s e : Int) (av : Option Availability) :
    checkTimeAgainstAvailability s e av none = false := by
  cases av <;> rfl

/-- When the day-class window of the start instant is present and, on
weekends, marked available, the evaluator reduces to parsing the window
strings and testing closed inclusion of the local range in the local
window. -/
theorem checkTime_eq_of_window (s e : Int) (a : Availability) (z : Timezone) (w : LocalWindow)
    (hw : (if isWeekendAt s z then a.weekends else a.weekdays) = some w)
    (havail : isWeekendAt s z = true → w.available = true) :
    checkTimeAgainstAvailability s e (some a) (some z) =
      (match w.start, w.end_ with
       | some ss, some es =>
         (match parseTime12 ss, parseTime12 es with
          | some ms, some me =>
            decide (1440 * ((s + z.offset).fdiv 1440) + ms ≤ s + z.offset) &&
              decide (e + z.offset ≤ 1440 * ((s + z.offset).fdiv 1440) + me)
          | _, _ => false)
       | _, _ => false) := by
  unfold checkTimeAgainstAvailability
  cases hwe : isWeekendAt s z
  · simp only [hwe] at hw
    simp at hw
    simp [hwe, hw]
  · simp only [hwe] at hw havail
    simp at hw havail
    simp [hwe, hw, havail]

/-- On a weekend start instant, a weekends entry that is absent or not
marked available makes the evaluator return false (line 136 of
utils/calendar.js). -/
theorem checkTime_false_of_weekend_unavailable (s e : Int) (a : Availability) (z : Timezone)
    (hwe : isWeekendAt s z = true)
    (hw : ∀ w, a.weekends = some w → w.available = false) :
    checkTimeAgainstAvailability s e (some a) (some z) = false := by
  unfold checkTimeAgainstAvailability
  cases hcase : a.weekends with
  | none => simp [hwe, hcase]
  | some w => simp [hwe, hcase, hw w hcase]

/-- An absent day-class window makes the evaluator return false (line 141
of utils/calendar.js). -/
theorem checkTime_false_of_window_none (s e : Int) (a : Availability) (z : Timezone)
    (hw : (if isWeekendAt s z then a.weekends else a.weekdays) = none) :
    checkTimeAgainstAvailability s e (some a) (some z) = false := by
  unfold checkTimeAgainstAvailability
  cases hwe : isWeekendAt s z
  · simp only [hwe] at hw
    simp at hw
    simp [hwe, hw]
  · simp only [hwe] at hw
    simp at hw
    simp [hwe, hw]

/-- A day-class window with a missing or unparseable start or end string
makes the evaluator return false (lines 141-150 of utils/calendar.js: a
missing field fails the guard, an unparseable one yields an invalid moment
and every comparison with it is false). -/
theorem checkTime_false_of_bad_fields (s e : Int) (a : Availability) (z : Timezone)
    (w : LocalWindow)
    (hw : (if isWeekendAt s z then a.weekends else a.weekdays) = some w)
    (hbad : w.start = none ∨ w.end_ = none ∨
      (∃ ss, w.start = some ss ∧ parseTime12 ss = none) ∨
      (∃ es, w.end_ = some es ∧ parseTime12 es = none)) :
    checkTimeAgainstAvailability s e (some a) (some z) = false := by
  have hfields : ∀ (A : Nat → Nat → Bool),
      (match w.start, w.end_ with
       | some ss, some es =>
         (match parseTime12 ss, parseTime12 es with
          | some ms, some me => A ms me
          | _, _ => false)
       | _, _ => false) = false := by
    intro A
    rcases hbad with h | h | ⟨ss, hss, hps⟩ | ⟨es, hes, hpe⟩
    · simp [h]
    · cases hstart : w.start <;> simp [h]
    · cases hend : w.end_ <;> simp [hss, hps]
    · cases hstart : w.start <;> simp [hes, hpe]
  unfold checkTimeAgainstAvailability
  cases hwe : isWeekendAt s z
  · simp only [hwe] at hw
    simp at hw
    simp only [hwe]
    simp [hw]
    exact hfields _
  · simp only [hwe] at hw
    simp at hw
    cases hava : w.available
    · simp [hwe, hw, hava]
    · simp [hwe, hw, hava]
      exact hfields _

/-- Every slot returned by the group engine passed the per-user check for
every requested user id, against the fetched calendars and meetings. -/
theorem slot_mem_passes (dbC : List Calendar) (dbM : List Meeting) (userIds : List Nat)
    (sd ed dur : Int) (slot : Slot)
    (h : slot ∈ findGroupAvailability dbC dbM userIds sd ed dur)
    (userId : Nat) (hu : userId ∈ userIds) :
    slotPassesUser (fetchedCalendars dbC userIds)
      (fetchedMeetings dbM ((fetchedCalendars dbC userIds).map (fun cal => cal.id)) sd ed)
      slot userId = true := by
  unfold findGroupAvailability at h
  cases hemp : (fetchedCalendars dbC userIds).isEmpty
  · simp only [hemp] at h
    rw [if_neg Bool.false_ne_true, List.mem_filter] at h
    exact List.all_eq_true.1 h.2 userId hu
  · simp [hemp] at h

/-- The `forEach`-built availability map resolves a user id to the LAST
fetched calendar of that user: later assignments overwrite earlier ones. -/
theorem availabilityByUser_eq_getLast (calendars : List Calendar) (userId : Nat) :
    availabilityByUser calendars userId =
      ((calendars.filter (fun cal => cal.users.user_id == userId)).getLast?).map
        (fun cal => (cal.users.timezone, cal.availability)) := by
  induction calendars using List.reverseRecOn with
  | nil => rfl
  | append_singleton cs c ih =>
    unfold availabilityByUser at ih ⊢
    rw [List.foldl_append, List.foldl_cons, List.foldl_nil, List.filter_append,
      List.filter_cons, List.filter_nil]
    cases hc : c.users.user_id == userId
    · rw [if_neg Bool.false_ne_true, if_neg Bool.false_ne_true, List.append_nil]
      exact ih
    · rw [if_pos rfl, if_pos rfl, List.getLast?_concat]
      rfl

/-- The `forEach`-built meetings map resolves a user id to the meetings of
the LAST fetched calendar of that user. -/
theorem meetingsByUser_eq_getLast (calendars : List Calendar) (meetings : List Meeting)
    (userId : Nat) :
    meetingsByUser calendars meetings userId =
      ((calendars.filter (fun cal => cal.users.user_id == userId)).getLast?).map
        (fun cal => meetings.filter (fun m => m.calendar_id == cal.id)) := by
  induction calendars using List.reverseRecOn with
  | nil => rfl
  | append_singleton cs c ih =>
    unfold meetingsByUser at ih ⊢
    rw [List.foldl_append, List.foldl_cons, List.foldl_nil, List.filter_append,
      List.filter_cons, List.filter_nil]
    cases hc : c.users.user_id == userId
    · rw [if_neg Bool.false_ne_true, if_neg Bool.false_ne_true, List.append_nil]
      exact ih
    · rw [if_pos rfl, if_pos rfl, List.getLast?_concat]
      rfl

/-- Unfolding of the per-user slot check once the availability lookup
succeeds. -/
theorem slotPassesUser_some (calendars : List Calendar) (meetings : List Meeting)
    (slot : Slot) (userId : Nat) (tzv : Option Timezone) (avail : Option Availability)
    (h : availabilityByUser calendars userId = some (tzv, avail)) :
    slotPassesUser calendars meetings slot userId =
      (checkTimeAgainstAvailability slot.start slot.end_ avail tzv &&
        !(hasConflict slot ((meetingsByUser calendars meetings userId).getD []))) := by
  unfold slotPassesUser
  rw [h]

/-- C2: the conflict detector reports a conflict if and only if some booked
range strictly overlaps the candidate (`candidate.start < b.end` and
`candidate.end > b.start`) or coincides with it on a boundary
(`candidate.start == b.start` or `candidate.end == b.end`); with no such
booked range it reports no conflict. -/
theorem hasConflict_iff_exists (slot : Slot) (ms : List Meeting) :
    hasConflict slot ms = true ↔
      ∃ b ∈ ms, (slot.start < b.end_time ∧ b.start_time < slot.end_) ∨
        slot.start = b.start_time ∨ slot.end_ = b.end_time := by
  unfold hasConflict meetingConflicts
  rw [List.any_eq_true]
  simp [or_assoc]

/-- C3 (amended): a candidate slot that merely abuts a booked range at a
shared boundary instant (candidate.end = booked.start or candidate.start =
booked.end) is NOT flagged as conflicting, provided it does not also share
the booked range's exact start or exact end; only strict overlap, same
start, or same end are conflicts. -/
theorem abutment_without_shared_boundary_not_conflict (s : Slot) (b : Meeting)
    (habut : s.end_ = b.start_time ∨ s.start = b.end_time)
    (hstart : s.start ≠ b.start_time) (hend : s.end_ ≠ b.end_time) :
    hasConflict s [b] = false := by
  unfold hasConflict meetingConflicts
  rcases habut with h | h <;> simp [h, hstart, hend] <;> omega

/-- C5 (amended): the evaluator returns false when the day-class window is
absent, or its start/end fields are missing, or — on weekend dates only —
its `available` flag is false.  (On weekdays the `available` flag is not
consulted; see the counterexample.) -/
theorem no_availability_when_window_defective (s e : Int) (a : Availability) (z : Timezone)
    (hdef : (if isWeekendAt s z then a.weekends else a.weekdays) = none ∨
      (∃ w, (if isWeekendAt s z then a.weekends else a.weekdays) = some w ∧
        (w.start = none ∨ w.end_ = none)) ∨
      (isWeekendAt s z = true ∧ ∃ w, a.weekends = some w ∧ w.available = false)) :
    checkTimeAgainstAvailability s e (some a) (some z) = false := by
  rcases hdef with h | ⟨w, hw, hmiss⟩ | ⟨hwe, w, hw, hoff⟩
  · exact checkTime_false_of_window_none s e a z h
  · exact checkTime_false_of_bad_fields s e a z w hw
      (hmiss.elim Or.inl (fun h2 => Or.inr (Or.inl h2)))
  · exact checkTime_false_of_weekend_unavailable s e a z hwe
      (fun w' h' => by rw [hw] at h'; cases h'; exact hoff)

/-- C1 (amended): for every instant range whose day-class window is present
with parseable start/end times and which, on weekend dates, is marked
available, the evaluator returns true iff the range's local start is at or
after the window's open instant and its local end is at or before the
window's close instant, both boundaries inclusive. -/
theorem availability_iff_within_window (s e : Int) (a : Availability) (z : Timezone)
    (w : LocalWindow) (ss es : String) (ms me : Nat)
    (hw : (if isWeekendAt s z then a.weekends else a.weekdays) = some w)
    (havail : isWeekendAt s z = true → w.available = true)
    (hs : w.start = some ss) (he : w.end_ = some es)
    (hms : parseTime12 ss = some ms) (hme : parseTime12 es = some me) :
    checkTimeAgainstAvailability s e (some a) (some z) = true ↔
      (1440 * ((s + z.offset).fdiv 1440) + ms ≤ s + z.offset ∧
        e + z.offset ≤ 1440 * ((s + z.offset).fdiv 1440) + me) := by
  rw [checkTime_eq_of_window s e a z w hw havail, hs, he]
  simp only [hms, hme]
  simp

/-- C6: if a requested owner's fetched pattern has a weekends window with
`available = false`, then no slot returned by the group engine starts on a
Saturday or Sunday in that owner's local timezone, regardless of the other
inputs. -/
theorem weekends_off_owner_blocks_weekend_slots
    (dbC : List Calendar) (dbM : List Meeting) (userIds : List Nat) (sd ed dur : Int)
    (userId : Nat) (z : Timezone) (a : Availability) (w : LocalWindow)
    (hu : userId ∈ userIds)
    (hav : availabilityByUser (fetchedCalendars dbC userIds) userId = some (some z, some a))
    (hwk : a.weekends = some w) (hoff : w.available = false) :
    (findGroupAvailability dbC dbM userIds sd ed dur).all
      (fun slot => !(isWeekendAt slot.start z)) = true := by
  rw [List.all_eq_true]
  intro slot hs
  have hp := slot_mem_passes dbC dbM userIds sd ed dur slot hs userId hu
  rw [slotPassesUser_some _ _ _ _ _ _ hav, Bool.and_eq_true] at hp
  have hct := hp.1
  cases hwe : isWeekendAt slot.start z
  · rfl
  · exfalso
    have hfalse := checkTime_false_of_weekend_unavailable slot.start slot.end_ a z hwe
      (fun w' h' => by rw [hwk] at h'; cases h'; exact hoff)
    rw [hfalse] at hct
    exact Bool.false_ne_true hct

/-- C7: an owner whose fetched record is malformed — availability object
missing, timezone missing, or the slot's day-class window carrying an
unparseable start/end string — is treated as unavailable: the affected slot
is never returned.  The engine is a total function (every malformed path
evaluates to `false` rather than an error), so one broken record never
aborts the whole computation. -/
theorem malformed_owner_excluded
    (dbC : List Calendar) (dbM : List Meeting) (userIds : List Nat) (sd ed dur : Int)
    (slot : Slot) (userId : Nat) (tzv : Option Timezone) (avail : Option Availability)
    (hu : userId ∈ userIds)
    (hav : availabilityByUser (fetchedCalendars dbC userIds) userId = some (tzv, avail))
    (hbad : avail = none ∨ tzv = none ∨
      (∃ z a w, tzv = some z ∧ avail = some a ∧
        (if isWeekendAt slot.start z then a.weekends else a.weekdays) = some w ∧
        ((∃ ss, w.start = some ss ∧ parseTime12 ss = none) ∨
         (∃ es, w.end_ = some es ∧ parseTime12 es = none)))) :
    slot ∉ findGroupAvailability dbC dbM userIds sd ed dur := by
  intro h
  have hp := slot_mem_passes dbC dbM userIds sd ed dur slot h userId hu
  rw [slotPassesUser_some _ _ _ _ _ _ hav, Bool.and_eq_true] at hp
  have hct := hp.1
  rcases hbad with h1 | h1 | ⟨z, a, w, hz, ha, hwin, hpf⟩
  · rw [h1, checkTime_none_availability] at hct
    exact Bool.false_ne_true hct
  · rw [h1, checkTime_none_timezone] at hct
    exact Bool.false_ne_true hct
  · subst hz ha
    rw [checkTime_false_of_bad_fields slot.start slot.end_ a z w hwin
      (hpf.elim (fun h2 => Or.inr (Or.inr (Or.inl h2)))
        (fun h2 => Or.inr (Or.inr (Or.inr h2))))] at hct
    exact Bool.false_ne_true hct

/-- C8: calling the group engine with an empty owner set returns the empty
slot list (the calendar fetch is empty, so the guard on line 173 of
utils/calendar.js returns `[]`), never an error. -/
theorem empty_owner_list_yields_empty (dbC : List Calendar) (dbM : List Meeting)
    (sd ed dur : Int) :
    findGroupAvailability dbC dbM [] sd ed dur = [] := by
  simp [findGroupAvailability, fetchedCalendars]

/-- C9: when both form dates parse and the end date precedes the start
date, the date-range form handler replies with the distinct date-range
error and does not proceed to the scheduling stage — slot generation only
happens downstream of `proceed`, so the request fails fast and the failure
is not an empty result. -/
theorem end_before_start_fails_request (ss es : String) (ds de : CivilDate) (a b : Int)
    (hs : parseDate ss = some ds) (he : parseDate es = some de)
    (hlt : dateBefore de ds = true) :
    processDateRangeForm ss es = .reply "End date must be after start date." ∧
      processDateRangeForm ss es ≠ .proceed a b := by
  unfold processDateRangeForm
  simp only [hs, he]
  rw [if_pos hlt]
  exact ⟨rfl, by intro h; cases h⟩

/-- C10: when a user has several fetched calendars, the engine's per-user
maps resolve to exactly the LAST calendar in the fetched list: the
availability pattern and the conflict set are that calendar's, the conflict
set contains only meetings of that calendar, and the per-user slot check
equals the check against that single calendar — so confirmed bookings on
the user's other calendars never exclude a slot. -/
theorem engine_consults_only_last_calendar (calendars : List Calendar)
    (meetings : List Meeting) (userId : Nat) (cal : Calendar) (slot : Slot)
    (hlast : (calendars.filter (fun c => c.users.user_id == userId)).getLast? = some cal) :
    availabilityByUser calendars userId = some (cal.users.timezone, cal.availability) ∧
    meetingsByUser calendars meetings userId =
      some (meetings.filter (fun m => m.calendar_id == cal.id)) ∧
    slotPassesUser calendars meetings slot userId =
      (checkTimeAgainstAvailability slot.start slot.end_ cal.availability cal.users.timezone &&
        !(hasConflict slot (meetings.filter (fun m => m.calendar_id == cal.id)))) := by
  have h1 : availabilityByUser calendars userId =
      some (cal.users.timezone, cal.availability) := by
    rw [availabilityByUser_eq_getLast, hlast]
    rfl
  have h2 : meetingsByUser calendars meetings userId =
      some (meetings.filter (fun m => m.calendar_id == cal.id)) := by
    rw [meetingsByUser_eq_getLast, hlast]
    rfl
  refine ⟨h1, h2, ?_⟩
  unfold slotPassesUser
  rw [h1, h2]
  rfl

/-- C1 (counterexample): on a Saturday (epoch day 2), with the weekend
window present and parseable (9:00 AM-5:00 PM) but `available = false`, a
range lying inside the window still evaluates to false, refuting the
claimed equivalence for windows that are present and parseable. -/
theorem weekend_flag_defeats_window_inclusion :
    (if isWeekendAt 3480 ⟨0⟩ then
        (Availability.mk none (some ⟨false, some "9:00 AM", some "5:00 PM"⟩)).weekends
      else (Availability.mk none (some ⟨false, some "9:00 AM", some "5:00 PM"⟩)).weekdays)
      = some ⟨false, some "9:00 AM", some "5:00 PM"⟩ ∧
    parseTime12 "9:00 AM" = some 540 ∧ parseTime12 "5:00 PM" = some 1020 ∧
    1440 * (((3480:Int) + (⟨0⟩ : Timezone).offset).fdiv 1440) + (540:Nat)
      ≤ 3480 + (⟨0⟩ : Timezone).offset ∧
    (3510:Int) + (⟨0⟩ : Timezone).offset
      ≤ 1440 * (((3480:Int) + (⟨0⟩ : Timezone).offset).fdiv 1440) + (1020:Nat) ∧
    checkTimeAgainstAvailability 3480 3510
      (some (Availability.mk none (some ⟨false, some "9:00 AM", some "5:00 PM"⟩)))
      (some ⟨0⟩) = false := by decide

/-- C1 (witness): the amended equivalence instantiated on a Friday 09:30
slot against a weekday 9:00 AM-5:00 PM window. -/
theorem availability_iff_within_window_witness :
    checkTimeAgainstAvailability 2010 2040
        (some (Availability.mk (some ⟨true, some "9:00 AM", some "5:00 PM"⟩) none))
        (some ⟨0⟩) = true ↔
      (1440 * (((2010:Int) + (⟨0⟩ : Timezone).offset).fdiv 1440) + (540:Nat)
          ≤ 2010 + (⟨0⟩ : Timezone).offset ∧
        (2040:Int) + (⟨0⟩ : Timezone).offset
          ≤ 1440 * (((2010:Int) + (⟨0⟩ : Timezone).offset).fdiv 1440) + (1020:Nat)) :=
  availability_iff_within_window 2010 2040
    (Availability.mk (some ⟨true, some "9:00 AM", some "5:00 PM"⟩) none) ⟨0⟩
    ⟨true, some "9:00 AM", some "5:00 PM"⟩ "9:00 AM" "5:00 PM" 540 1020
    (by decide) (by decide) rfl rfl (by decide) (by decide)

/-- C3 (counterexample): a candidate [10:00,10:30) against a booked
[10:30,11:00) is NOT flagged as conflicting, and with a single booking
10:00-11:00 on a Friday the engine retains both boundary-touching slots
09:30-10:00 and 11:00-11:30, refuting the claimed exclusion. -/
theorem abutting_slot_not_flagged :
    hasConflict ⟨600, 630⟩ [⟨1, 630, 660, "confirmed"⟩] = false ∧
    hasConflict ⟨570, 600⟩ [⟨1, 600, 660, "confirmed"⟩] = false ∧
    hasConflict ⟨660, 690⟩ [⟨1, 600, 660, "confirmed"⟩] = false ∧
    (⟨2010, 2040⟩ : Slot) ∈
      findGroupAvailability
        [⟨1, ⟨7, some ⟨0⟩⟩,
          some (Availability.mk (some ⟨true, some "9:00 AM", some "5:00 PM"⟩) none)⟩]
        [⟨1, 2040, 2100, "confirmed"⟩] [7] 1 1 30 ∧
    (⟨2100, 2130⟩ : Slot) ∈
      findGroupAvailability
        [⟨1, ⟨7, some ⟨0⟩⟩,
          some (Availability.mk (some ⟨true, some "9:00 AM", some "5:00 PM"⟩) none)⟩]
        [⟨1, 2040, 2100, "confirmed"⟩] [7] 1 1 30 := by decide

/-- C3 (witness): the amended non-conflict statement instantiated on the
abutting pair [10:00,10:30) and booked [10:30,11:00). -/
theorem abutment_without_shared_boundary_not_conflict_witness :
    hasConflict ⟨600, 630⟩ [⟨2, 630, 660, "confirmed"⟩] = false :=
  abutment_without_shared_boundary_not_conflict ⟨600, 630⟩ ⟨2, 630, 660, "confirmed"⟩
    (Or.inl rfl) (by decide) (by decide)

/-- C4: evaluating the slot generator at the failing input (a single day,
duration 30) shows its first emitted slot starts at 09:30, no emitted slot
starts at 09:00, and no emitted slot ends after 17:00 — the `.add` inside
the loop condition mutates the cursor before the first emission, skipping
the 09:00 step point that the code's own business-hours comment implies. -/
theorem generator_first_slot_is_0930 :
    (generateTimeSlots 0 0 30).head? = some ⟨570, 600⟩ ∧
    (generateTimeSlots 0 0 30).all (fun s => !(s.start == 540)) = true ∧
    (generateTimeSlots 0 0 30).all (fun s => decide (s.end_ ≤ 1020)) = true := by decide

/-- C5 (counterexample): on a Friday, a weekdays window with `available =
false` but parseable start/end still evaluates to true for an in-window
range: the weekday `available` flag is never consulted (line 136 of
utils/calendar.js guards weekends only). -/
theorem weekday_unavailable_flag_ignored :
    isWeekendAt 2040 ⟨0⟩ = false ∧
    checkTimeAgainstAvailability 2040 2070
      (some (Availability.mk (some ⟨false, some "9:00 AM", some "5:00 PM"⟩) none))
      (some ⟨0⟩) = true := by decide

/-- C5 (witness): the amended statement instantiated on a pattern with no
windows at all. -/
theorem no_availability_when_window_defective_witness :
    checkTimeAgainstAvailability 600 630 (some (Availability.mk none none))
      (some ⟨0⟩) = false :=
  no_availability_when_window_defective 600 630 (Availability.mk none none) ⟨0⟩
    (Or.inl (by decide))

/-- C6 (witness): a single owner with weekends unavailable, requested over
a Saturday, yields no weekend-starting slot. -/
theorem weekends_off_owner_blocks_weekend_slots_witness :
    (findGroupAvailability
        [⟨1, ⟨7, some ⟨0⟩⟩,
          some (Availability.mk (some ⟨true, some "9:00 AM", some "5:00 PM"⟩)
            (some ⟨false, some "9:00 AM", some "5:00 PM"⟩))⟩]
        [] [7] 2 2 30).all
      (fun slot => !(isWeekendAt slot.start ⟨0⟩)) = true :=
  weekends_off_owner_blocks_weekend_slots
    [⟨1, ⟨7, some ⟨0⟩⟩,
      some (Availability.mk (some ⟨true, some "9:00 AM", some "5:00 PM"⟩)
        (some ⟨false, some "9:00 AM", some "5:00 PM"⟩))⟩]
    [] [7] 2 2 30 7 ⟨0⟩
    (Availability.mk (some ⟨true, some "9:00 AM", some "5:00 PM"⟩)
      (some ⟨false, some "9:00 AM", some "5:00 PM"⟩))
    ⟨false, some "9:00 AM", some "5:00 PM"⟩
    (by decide) (by decide) rfl rfl

/-- C7 (witness): an owner with a missing timezone never receives the
09:30 slot of the requested day. -/
theorem malformed_owner_excluded_witness :
    (⟨570, 600⟩ : Slot) ∉
      findGroupAvailability
        [⟨1, ⟨7, none⟩,
          some (Availability.mk (some ⟨true, some "9:00 AM", some "5:00 PM"⟩) none)⟩]
        [] [7] 0 0 30 :=
  malformed_owner_excluded
    [⟨1, ⟨7, none⟩,
      some (Availability.mk (some ⟨true, some "9:00 AM", some "5:00 PM"⟩) none)⟩]
    [] [7] 0 0 30 ⟨570, 600⟩ 7 none
    (some (Availability.mk (some ⟨true, some "9:00 AM", some "5:00 PM"⟩) none))
    (by decide) (by decide) (Or.inr (Or.inl rfl))

/-- C9 (witness): the form handler on 2024-05-10 .. 2024-05-09 replies
with the date-range error and does not proceed. -/
theorem end_before_start_fails_request_witness :
    processDateRangeForm "2024-05-10" "2024-05-09" =
        DateRangeFormResult.reply "End date must be after start date." ∧
      processDateRangeForm "2024-05-10" "2024-05-09" ≠ DateRangeFormResult.proceed 0 0 :=
  end_before_start_fails_request "2024-05-10" "2024-05-09" ⟨2024, 5, 10⟩ ⟨2024, 5, 9⟩ 0 0
    (by decide) (by decide) (by decide)

/-- C10 (witness): with two calendars for user 7, the maps and the
per-user check resolve to the second (last) calendar, ignoring the meeting
booked on the first. -/
theorem engine_consults_only_last_calendar_witness :
    availabilityByUser
        [⟨1, ⟨7, some ⟨60⟩⟩, none⟩,
         ⟨2, ⟨7, some ⟨0⟩⟩,
          some (Availability.mk (some ⟨true, some "9:00 AM", some "5:00 PM"⟩) none)⟩] 7 =
      some (some ⟨0⟩,
        some (Availability.mk (some ⟨true, some "9:00 AM", some "5:00 PM"⟩) none)) ∧
    meetingsByUser
        [⟨1, ⟨7, some ⟨60⟩⟩, none⟩,
         ⟨2, ⟨7, some ⟨0⟩⟩,
          some (Availability.mk (some ⟨true, some "9:00 AM", some "5:00 PM"⟩) none)⟩]
        [⟨1, 600, 660, "confirmed"⟩] 7 =
      some (List.filter (fun m => m.calendar_id == 2) [⟨1, 600, 660, "confirmed"⟩]) ∧
    slotPassesUser
        [⟨1, ⟨7, some ⟨60⟩⟩, none⟩,
         ⟨2, ⟨7, some ⟨0⟩⟩,
          some (Availability.mk (some ⟨true, some "9:00 AM", some "5:00 PM"⟩) none)⟩]
        [⟨1, 600, 660, "confirmed"⟩] ⟨2010, 2040⟩ 7 =
      (checkTimeAgainstAvailability 2010 2040
          (some (Availability.mk (some ⟨true, some "9:00 AM", some "5:00 PM"⟩) none))
          (some ⟨0⟩) &&
        !(hasConflict ⟨2010, 2040⟩
          (List.filter (fun m => m.calendar_id == 2) [⟨1, 600, 660, "confirmed"⟩]))) :=
  engine_consults_only_last_calendar
    [⟨1, ⟨7, some ⟨60⟩⟩, none⟩,
     ⟨2, ⟨7, some ⟨0⟩⟩,
      some (Availability.mk (some ⟨true, some "9:00 AM", some "5:00 PM"⟩) none)⟩]
    [⟨1, 600, 660, "confirmed"⟩] 7
    ⟨2, ⟨7, some ⟨0⟩⟩,
      some (Availability.mk (some ⟨true, some "9:00 AM", some "5:00 PM"⟩) none)⟩
    ⟨2010, 2040⟩ (by decide)
